import Mathlib

/-!
Verification of the libosmium PBF random-access index
(`include/osmium/io/pbf_input_randomaccess.hpp`) and the OSM object builders
(`include/osmium/builder/osm_object_builder.hpp`) against their
natural-language specification.

Files are modelled as lists of byte values (`List Nat`, each byte `< 256`).
External collaborators (the protozero message decoder, the block decompressor,
raw file I/O) are modelled as oracle parameters or by their spec-level
byte semantics, exactly as the spec declares them out of scope.
-/

deriving instance DecidableEq for Except

namespace Osmium

/-! ## Byte-level primitives from `pbf_input_randomaccess.hpp` -/

/-- Value of a byte when read through a C++ `char` (signed on the library's
primary x86-64 targets): bytes `128..255` become negative values `-128..-1`. -/
def charOfByte (b : Nat) : Int :=
  if b % 256 < 128 then ((b % 256 : Nat) : Int) else ((b % 256 : Nat) : Int) - 256

/-- C++ conversion of a (possibly negative) integer to `uint32_t`:
reduction modulo `2^32`. -/
def toUInt32c (i : Int) : Nat := (i % (2 : Int) ^ 32).toNat

/-- Embedding of `detail::get_size_in_network_byte_order` (lines 76-81):
`(uint32_t)d[3] | ((uint32_t)d[2] << 8) | ((uint32_t)d[1] << 16) | ((uint32_t)d[0] << 24)`
where each `d[i]` is a (signed) `char`.  Shifts of `uint32_t` wrap modulo `2^32`. -/
def get_size_in_network_byte_order (d0 d1 d2 d3 : Nat) : Nat :=
  Nat.lor
    (Nat.lor
      (Nat.lor (toUInt32c (charOfByte d3)) (toUInt32c (charOfByte d2) <<< 8 % 2 ^ 32))
      (toUInt32c (charOfByte d1) <<< 16 % 2 ^ 32))
    (toUInt32c (charOfByte d0) <<< 24 % 2 ^ 32)

/-- The straightforward big-endian unsigned 32-bit interpretation of four bytes,
as the spec describes it: byte 0 contributes `2^24` times its value, and so on. -/
def bigEndian4 (d0 d1 d2 d3 : Nat) : Nat :=
  d0 * 2 ^ 24 + d1 * 2 ^ 16 + d2 * 2 ^ 8 + d3

/-- Apply `get_size_in_network_byte_order` to a 4-byte list. -/
def get_size4 : List Nat → Nat
  | [a, b, c, d] => get_size_in_network_byte_order a b c d
  | _ => 0

/-- Constant `detail::max_small_blob_header_size` (line 61). -/
def max_small_blob_header_size : Nat := 64

/-- Constant `detail::max_block_size` (line 64). -/
def max_block_size : Nat := 20 * 1024 * 1024

/-! ## Data model of the block index (`pbf_input_randomaccess.hpp`) -/

/-- OSM item kinds (`osmium::item_type`), reduced to the object kinds plus the
`undefined` sentinel used by the first-item cache. -/
inductive item_type where
  | undefined
  | node
  | way
  | relation
  | area
  | changeset
deriving DecidableEq

/-- Embedding of `struct pbf_block_start` (lines 151-158), in the source's
field order. -/
structure pbf_block_start where
  file_offset : Nat
  first_item_id_or_zero : Int
  datasize : Nat
  first_item_type_or_zero : item_type
deriving DecidableEq

/-- The distinguishable format errors thrown by the index code
(`osmium::pbf_error` with the various message strings). -/
inductive PbfError where
  | invalidSmallBlobHeaderSize
  | eofBlobHeaderSize
  | eofBlobHeader
  | missingDataSize
  | unexpectedType
  | invalidBlockSize
  | fileSizeMismatch
  | eofBlockRead
  | invalidBlockIndex
deriving DecidableEq

/-- One field of a decoded `BlobHeader` protobuf message, as delivered by the
external protozero iteration in `decode_blob_header`: the `type` string field,
the `int32 datasize` field, or any other (skipped) field. -/
inductive HField where
  | typeF (s : List Nat)
  | datasizeF (n : Int)
  | otherF
deriving DecidableEq

/-- C++ conversion of an `int32_t` value to `size_t` (64-bit): reduction
modulo `2^64`, so negative values become huge. -/
def toSizeT (i : Int) : Nat := (i % (2 : Int) ^ 64).toNat

/-- Result of `strncmp(a, b, n) == 0` for byte strings, where `a` is
NUL-terminated: compare up to `n` bytes, stopping early at a difference or at a
matching NUL.  In every use below `a` ends in a `0` byte and `n` is `b`'s
length, so the catch-all clause (an out-of-bounds read in C) is unreachable. -/
def strncmpEq : List Nat → List Nat → Nat → Bool
  | _, _, 0 => true
  | a :: as, b :: bs, n + 1 =>
    if a ≠ b then false
    else if a = 0 then true
    else strncmpEq as bs n
  | _, _, _ + 1 => true

/-- The bytes of the string literal `OSMHeader`. -/
def OSMHeaderBytes : List Nat := [79, 83, 77, 72, 101, 97, 100, 101, 114]

/-- The bytes of the string literal `OSMData`. -/
def OSMDataBytes : List Nat := [79, 83, 77, 68, 97, 116, 97]

/-- The `while (pbf_blob_header.next())` loop of `decode_blob_header`
(lines 125-136): the last `type` and `datasize` fields win, other fields are
skipped; `type` starts as an empty view and `datasize` as `0`. -/
def headerFold (fields : List HField) : List Nat × Nat :=
  fields.foldl
    (fun acc f =>
      match f with
      | .typeF s => (s, acc.2)
      | .datasizeF n => (acc.1, toSizeT n)
      | .otherF => acc)
    ([], 0)

/-- Embedding of `detail::decode_blob_header` (lines 120-147): iterate the
message fields, reject a missing/zero `datasize`, then reject the blob if
`strncmp(expected_type, type.data(), type.size()) != 0`. -/
def decode_blob_header (fields : List HField) (expected : List Nat) :
    Except PbfError Nat :=
  let r := headerFold fields
  if r.2 = 0 then .error .missingDataSize
  else if strncmpEq (expected ++ [0]) r.1 r.1.length then .ok r.2
  else .error .unexpectedType

/-- Spec-level model of `read_exactly` on a byte file: reading `n` bytes at
offset `off` yields those bytes, or EOF (`none`) if fewer than `n` remain. -/
def readBytes (file : List Nat) (off n : Nat) : Option (List Nat) :=
  if off + n ≤ file.length then some ((file.drop off).take n) else none

/-- Embedding of `PbfBlockIndexTable::digest_and_skip_block` (lines 164-194),
parameterised by the external protozero message decoder `dm` mapping the raw
header bytes to the field sequence.  Returns the consumed blob-header size, the
blob body size, and the index entry appended for a data block.  The body bytes
are never read (the file is only repositioned past them). -/
def digest_and_skip_block (dm : List Nat → List HField) (file : List Nat)
    (off : Nat) (should_index_block : Bool) :
    Except PbfError (Nat × Nat × Option pbf_block_start) :=
  match readBytes file off 4 with
  | none => .error .eofBlobHeaderSize
  | some pre =>
    let blob_header_size := get_size4 pre
    if blob_header_size > max_small_blob_header_size then
      .error .invalidSmallBlobHeaderSize
    else
      match readBytes file (off + 4) blob_header_size with
      | none => .error .eofBlobHeader
      | some hdr =>
        let expected := if should_index_block then OSMDataBytes else OSMHeaderBytes
        match decode_blob_header (dm hdr) expected with
        | .error e => .error e
        | .ok blob_body_size =>
          if blob_body_size > max_block_size then .error .invalidBlockSize
          else
            .ok (blob_header_size, blob_body_size,
              if should_index_block then
                some ⟨off + 4 + blob_header_size, 0, blob_body_size, .undefined⟩
              else none)

/-- The `while (offset < file_size)` loop of the `PbfBlockIndexTable`
constructor (lines 220-229), including the final
`offset > file_size` truncation check. -/
def buildLoop (dm : List Nat → List HField) (file : List Nat) (off : Nat)
    (acc : List pbf_block_start) : Except PbfError (List pbf_block_start) :=
  if h : off < file.length then
    match digest_and_skip_block dm file off true with
    | .error e => .error e
    | .ok (hs, ds, ent) => buildLoop dm file (off + 4 + hs + ds) (acc ++ ent.toList)
  else if off > file.length then .error .fileSizeMismatch
  else .ok acc
termination_by file.length - off
decreasing_by omega

/-- Embedding of the `PbfBlockIndexTable` constructor (lines 208-230): digest
the `OSMHeader` block at offset 0, then index every following data block; any
failure aborts the whole construction with no index. -/
def buildIndex (dm : List Nat → List HField) (file : List Nat) :
    Except PbfError (List pbf_block_start) :=
  match digest_and_skip_block dm file 0 false with
  | .error e => .error e
  | .ok (hs, ds, _) => buildLoop dm file (4 + hs + ds) []

/-! ## Well-formed synthetic container files -/

/-- One block of a synthetic container file: the raw bytes of its blob-header
message and the raw bytes of its body. -/
structure SynthBlock where
  headerBytes : List Nat
  body : List Nat
deriving DecidableEq

/-- Byte encoding of one block: 4-byte big-endian length prefix of the header
message, then the header-message bytes, then the body bytes.  Header messages
of well-formed blocks are at most 64 bytes, so the prefix is `[0,0,0,len]`. -/
def encBlock (b : SynthBlock) : List Nat :=
  [0, 0, 0, b.headerBytes.length] ++ b.headerBytes ++ b.body

/-- Byte encoding of a whole container file: a header block followed by data
blocks. -/
def encFile (hdr : SynthBlock) (datas : List SynthBlock) : List Nat :=
  encBlock hdr ++ (datas.map encBlock).flatten

/-- A block is well formed for the decoder `dm` and expected type string when
its header message is small, decodes to a `datasize` equal to its body length,
and that size is within the block-size bound. -/
def GoodBlock (dm : List Nat → List HField) (expected : List Nat) (b : SynthBlock) : Prop :=
  b.headerBytes.length ≤ max_small_blob_header_size ∧
  decode_blob_header (dm b.headerBytes) expected = .ok b.body.length ∧
  b.body.length ≤ max_block_size

instance (dm : List Nat → List HField) (expected : List Nat) (b : SynthBlock) :
    Decidable (GoodBlock dm expected b) := by
  unfold GoodBlock
  exact inferInstance

/-- The index entries the spec predicts for data blocks laid out one after the
other starting at file offset `off`: entry `i`'s `file_offset` is the
cumulative offset of block `i`'s body and its `datasize` is the body length,
with the first-item cache at the zero/undefined sentinel. -/
def expectedEntries : Nat → List SynthBlock → List pbf_block_start
  | _, [] => []
  | off, b :: bs =>
    ⟨off + 4 + b.headerBytes.length, 0, b.body.length, .undefined⟩ ::
      expectedEntries (off + (encBlock b).length) bs

/-! ## On-demand block decode (`get_parsed_block`, lines 247-272) -/

/-- Metadata flag `osmium::io::read_meta`.  Modelled from the spec: it selects
only whether extended per-entity metadata is materialised. -/
inductive read_meta where
  | yes
  | no
deriving DecidableEq

/-- Entity-kind filter `osmium::osm_entity_bits::type`.  Modelled from the
spec: one flag per decodable entity kind. -/
structure osm_entity_bits where
  node : Bool
  way : Bool
  relation : Bool
  area : Bool
  changeset : Bool
deriving DecidableEq

/-- The filter value `osmium::osm_entity_bits::all`: every entity kind. -/
def osm_entity_bits.all : osm_entity_bits := ⟨true, true, true, true, true⟩

/-- One decoded OSM object as observed by the buffer iteration in
`get_parsed_block`: its id and its item type. -/
structure DecItem where
  id : Int
  ty : item_type
deriving DecidableEq

/-- State of a `PbfBlockIndexTable`: the index entries (the only mutable part)
plus the opened file's bytes. -/
structure TableState where
  block_starts : List pbf_block_start
  file : List Nat
deriving DecidableEq

/-- The first-item cache update at lines 264-270: if the entry is still at the
`undefined` sentinel, fill it from the first item of the decoded buffer (leave
it untouched when the buffer is empty); once filled it is never written. -/
def cacheUpdate (bs : pbf_block_start) (buffer : List DecItem) : pbf_block_start :=
  if bs.first_item_type_or_zero = item_type.undefined then
    match buffer with
    | [] => bs
    | it :: _ =>
      { bs with first_item_id_or_zero := it.id, first_item_type_or_zero := it.ty }
  else bs

/-- Embedding of `PbfBlockIndexTable::get_parsed_block` (lines 247-272),
parameterised by the external `PBFDataBlobDecoder` `D` (modelled from the spec
as a pure function of the raw block bytes, the entity-kind filter and the
metadata flag).  Line 249 fixes the filter to `osm_entity_bits::all` regardless
of any caller-side kind preference; only `read_metadata` is passed through.
After decoding, a still-undefined first-item cache entry is filled from the
first decoded item, if any.  An invalid index is a precondition fault. -/
def get_parsed_block (D : List Nat → osm_entity_bits → read_meta → List DecItem)
    (s : TableState) (block_index : Nat) (read_metadata : read_meta) :
    Except PbfError (List DecItem × TableState) :=
  if h : block_index < s.block_starts.length then
    let bs := s.block_starts.get ⟨block_index, h⟩
    match readBytes s.file bs.file_offset bs.datasize with
    | none => .error .eofBlockRead
    | some input_buffer =>
      let buffer := D input_buffer osm_entity_bits.all read_metadata
      .ok (buffer, ⟨s.block_starts.set block_index (cacheUpdate bs buffer), s.file⟩)
  else .error .invalidBlockIndex

/-- One call of `get_parsed_block` viewed as a state transformer: a failing
call (including the invalid-index precondition fault) leaves the table
unchanged, since the C++ code throws before touching `m_block_starts`. -/
def tableStep (D : List Nat → osm_entity_bits → read_meta → List DecItem)
    (s : TableState) (c : Nat × read_meta) : TableState :=
  match get_parsed_block D s c.1 c.2 with
  | .ok r => r.2
  | .error _ => s

/-- Any sequence of `get_parsed_block` calls, applied in order. -/
def runCalls (D : List Nat → osm_entity_bits → read_meta → List DecItem)
    (cs : List (Nat × read_meta)) (s : TableState) : TableState :=
  cs.foldl (tableStep D) s

/-- The construction-time part of an index entry: its file offset and size. -/
def entryShape (b : pbf_block_start) : Nat × Nat := (b.file_offset, b.datasize)

/-! ## OSM object builders (`osm_object_builder.hpp`) -/

/-- Constant `osmium::max_osm_string_length`.  Modelled from the spec: the
maximum byte length of an OSM string field (256 four-byte characters). -/
def max_osm_string_length : Nat := 256 * 4

/-- Alignment padding `osmium::memory::padded_length`.  Modelled from the
spec: round up to the fixed 8-byte alignment unit. -/
def padded_length (n : Nat) : Nat := (n + 7) / 8 * 8

/-- Byte width of `osmium::string_size_type` (`uint16_t`). -/
def string_size_type_size : Nat := 2

/-- Builder errors: a failed assertion (precondition fault) or a
`std::length_error`. -/
inductive BuildError where
  | assertFail
  | lengthError
deriving DecidableEq

/-- Spec-modelled Builder-protocol state for a list builder: `committed` holds
every byte before the current item's start (previously completed sibling
Items — per the Arena Buffer contract these are never written again),
`current` the bytes appended for the item under construction, and `itemSize`
its tracked content length.  All builder operations write only to `current`. -/
structure BuilderState where
  committed : List Nat
  current : List Nat
  itemSize : Nat
deriving DecidableEq

/-- Embedding of `TagListBuilder::add_tag` (lines 103-148, all string
variants): both length checks run before any byte is appended; on success the
key and the value are appended, each NUL-terminated. -/
def add_tag (s : BuilderState) (key value : List Nat) : Option BuildError × BuilderState :=
  if key.length > max_osm_string_length then (some .lengthError, s)
  else if value.length > max_osm_string_length then (some .lengthError, s)
  else (none, ⟨s.committed, s.current ++ key ++ [0] ++ value ++ [0],
    s.itemSize + (key.length + 1) + (value.length + 1)⟩)

/-- Byte width of `sizeof(osmium::RelationMember)`.  Modelled from the spec:
a fixed-size inline sub-record. -/
def relation_member_size : Nat := 16

/-- Embedding of `RelationMemberListBuilder::add_member` (lines 284-292) with
its private `add_role` (lines 240-247): the fixed-size member record is
reserved and committed first; only then is the role length checked, so an
over-long role aborts after the member record was appended (still inside the
current item — committed siblings are untouched).  On success the role is
appended NUL-terminated and the item padded to the alignment unit
(`add_padding(true)`). -/
def add_member (s : BuilderState) (role : List Nat) : Option BuildError × BuilderState :=
  let s1 : BuilderState := ⟨s.committed, s.current ++ List.replicate relation_member_size 0,
    s.itemSize + relation_member_size⟩
  if role.length > max_osm_string_length then (some .lengthError, s1)
  else
    let sz := s1.itemSize + (role.length + 1)
    (none, ⟨s1.committed,
      s1.current ++ role ++ [0] ++ List.replicate (padded_length sz - sz) 0,
      padded_length sz⟩)

/-- Byte width of `sizeof(osmium::ChangesetComment)`.  Modelled from the spec:
a fixed-size comment header (date, author id, two string-size fields). -/
def changeset_comment_size : Nat := 16

/-- Largest value of `osmium::changeset_comment_size_type` (`uint32_t`). -/
def changeset_comment_size_max : Nat := 2 ^ 32 - 1

/-- State of a `ChangesetDiscussionBuilder`: the `m_comment` pending marker
plus the Builder-protocol state. -/
structure DiscState where
  pending : Bool
  committed : List Nat
  current : List Nat
  itemSize : Nat
deriving DecidableEq

/-- One public call on a `ChangesetDiscussionBuilder`. -/
inductive DiscOp where
  | comment (user : List Nat)
  | commentText (text : List Nat)
deriving DecidableEq

/-- Embedding of `ChangesetDiscussionBuilder::add_comment` (lines 370-376):
assert that no comment is pending, reserve and commit the comment record
(setting the pending marker), then the private `add_user` (lines 330-336)
checks the author-name length — throwing after the record was appended — and
appends the NUL-terminated name. -/
def add_comment (s : DiscState) (user : List Nat) : Option BuildError × DiscState :=
  if s.pending then (some .assertFail, s)
  else
    let s1 : DiscState := ⟨true, s.committed,
      s.current ++ List.replicate changeset_comment_size 0,
      s.itemSize + changeset_comment_size⟩
    if user.length > max_osm_string_length then (some .lengthError, s1)
    else (none, ⟨true, s1.committed, s1.current ++ user ++ [0],
      s1.itemSize + (user.length + 1)⟩)

/-- Embedding of `ChangesetDiscussionBuilder::add_comment_text`
(lines 378-390): assert that a comment is pending, clear the pending marker,
then the private `add_text` (lines 338-345) checks the text length, appends
the NUL-terminated text and pads the item. -/
def add_comment_text (s : DiscState) (text : List Nat) : Option BuildError × DiscState :=
  if !s.pending then (some .assertFail, s)
  else
    let s1 : DiscState := ⟨false, s.committed, s.current, s.itemSize⟩
    if text.length > changeset_comment_size_max - 1 then (some .lengthError, s1)
    else
      let sz := s1.itemSize + (text.length + 1)
      (none, ⟨false, s1.committed,
        s1.current ++ text ++ [0] ++ List.replicate (padded_length sz - sz) 0,
        padded_length sz⟩)

/-- Dispatch one discussion-builder call. -/
def discStep (s : DiscState) : DiscOp → Option BuildError × DiscState
  | .comment u => add_comment s u
  | .commentText t => add_comment_text s t

/-- Run a sequence of discussion-builder calls, stopping at the first thrown
error (as C++ exception propagation does). -/
def runDisc : List DiscOp → DiscState → Option BuildError × DiscState
  | [], s => (none, s)
  | op :: rest, s =>
    match discStep s op with
    | (some e, s1) => (some e, s1)
    | (none, s1) => runDisc rest s1

/-- The destructor's assertion (line 366): a precondition fault iff a comment
is still pending at destruction. -/
def disc_dtor_assert (s : DiscState) : Option BuildError :=
  if s.pending then some .assertFail else none

/-- Strict begin/end alternation of discussion-builder calls. -/
def alternatingOps : List DiscOp → Bool
  | [] => true
  | .comment _ :: .commentText _ :: rest => alternatingOps rest
  | _ => false

/-- State of an `OSMObjectBuilder` or `ChangesetBuilder` item region:
`objLen` is `sizeof(T)` for the fixed-size record at the item start, `data`
the item's bytes (record then user-name region), `size` the builder's tracked
item size, and `user_size` the record's stored user-name size field (tracked
apart, since the record's internal layout is external to this core). -/
structure ObjBuilderState where
  objLen : Nat
  data : List Nat
  size : Nat
  user_size : Nat
deriving DecidableEq

/-- Embedding of the `OSMObjectBuilder` constructor (lines 412-418): reserve
`min_size_for_user = padded_length(sizeof(string_size_type) + 1)` extra bytes
after the record, zero-fill them, and set the stored user size to 1 (the
terminating NUL only).  `objBytes` stands for the fixed-size record `T`
with whatever the scalar setters wrote into it. -/
def mkOSMObjectBuilder (objBytes : List Nat) : ObjBuilderState :=
  ⟨objBytes.length,
    objBytes ++ List.replicate (padded_length (string_size_type_size + 1)) 0,
    objBytes.length + padded_length (string_size_type_size + 1), 1⟩

/-- Embedding of `OSMObjectBuilder::set_user` (lines 448-462); the assertion
is modelled as a guard, `none` being the precondition fault.  The name is
written at `sizeof(T) + sizeof(string_size_type)`; an extra zero-filled,
alignment-padded reservation is made exactly when the name exceeds the
initially reserved space. -/
def OSMObjectBuilder.set_user (s : ObjBuilderState) (user : List Nat) :
    Option ObjBuilderState :=
  if s.user_size = 1 ∧ s.size ≤ s.objLen + string_size_type_size + padded_length 1 then
    let available_space := padded_length (string_size_type_size + 1)
      - string_size_type_size - 1
    let extra := if user.length > available_space
      then padded_length (user.length - available_space) else 0
    let data1 := s.data ++ List.replicate extra 0
    let off := s.objLen + string_size_type_size
    some ⟨s.objLen, data1.take off ++ user ++ data1.drop (off + user.length),
      s.size + extra, user.length + 1⟩
  else none

/-- The stored user name: `user_size - 1` bytes at the name offset. -/
def OSMObjectBuilder.userName (s : ObjBuilderState) : List Nat :=
  (s.data.drop (s.objLen + string_size_type_size)).take (s.user_size - 1)

/-- Embedding of the `ChangesetBuilder` constructor (lines 611-617):
as for objects but with `min_size_for_user = padded_length(1)` and the name
written directly after `sizeof(Changeset)`. -/
def mkChangesetBuilder (csBytes : List Nat) : ObjBuilderState :=
  ⟨csBytes.length, csBytes ++ List.replicate (padded_length 1) 0,
    csBytes.length + padded_length 1, 1⟩

/-- Embedding of `ChangesetBuilder::set_user` (lines 667-680). -/
def ChangesetBuilder.set_user (s : ObjBuilderState) (user : List Nat) :
    Option ObjBuilderState :=
  if s.user_size = 1 ∧ s.size ≤ s.objLen + padded_length 1 then
    let available_space := padded_length 1 - 1
    let extra := if user.length > available_space
      then padded_length (user.length - available_space) else 0
    let data1 := s.data ++ List.replicate extra 0
    some ⟨s.objLen, data1.take s.objLen ++ user ++ data1.drop (s.objLen + user.length),
      s.size + extra, user.length + 1⟩
  else none

/-- The stored user name of a changeset: `user_size - 1` bytes after the
record. -/
def ChangesetBuilder.userName (s : ObjBuilderState) : List Nat :=
  (s.data.drop s.objLen).take (s.user_size - 1)

/-! ## Concrete instances used by witnesses and counterexamples -/

/-- Header-message decoder for a synthetic three-data-block file. -/
def dmW1 : List Nat → List HField := fun hb =>
  if hb = [0] then [.typeF OSMHeaderBytes, .datasizeF 1]
  else if hb = [1] then [.typeF OSMDataBytes, .datasizeF 2]
  else if hb = [2] then [.typeF OSMDataBytes, .datasizeF 3]
  else [.typeF OSMDataBytes, .datasizeF 4]

/-- A synthetic header block. -/
def hdrW1 : SynthBlock := ⟨[0], [9]⟩

/-- Three synthetic data blocks of body sizes 2, 3 and 4. -/
def datasW1 : List SynthBlock := [⟨[1], [5, 6]⟩, ⟨[2], [7, 8, 9]⟩, ⟨[3], [1, 2, 3, 4]⟩]

/-- A decoder whose header blob type is `OSM` — a strict prefix of
`OSMHeader`. -/
def dmCE2 : List Nat → List HField := fun _ => [.typeF [79, 83, 77], .datasizeF 1]

/-- A block decoder that is sensitive to the entity-kind filter: with every
kind enabled it returns nothing, with the node kind disabled it would return
an item. -/
def Dw3a : List Nat → osm_entity_bits → read_meta → List DecItem :=
  fun _ bits _ => if bits.node then [] else [⟨1, .node⟩]

/-- A block decoder that always returns nothing. -/
def Dw3b : List Nat → osm_entity_bits → read_meta → List DecItem :=
  fun _ _ _ => []

/-- A one-entry table over a one-byte file. -/
def sW3 : TableState := ⟨[⟨0, 0, 1, .undefined⟩], [7]⟩

/-- A block decoder returning one way item. -/
def Dw4 : List Nat → osm_entity_bits → read_meta → List DecItem :=
  fun _ _ _ => [⟨42, .way⟩]

/-- A two-entry table: entry 0 with its first-item cache already resolved,
entry 1 still at the sentinel. -/
def sW4 : TableState := ⟨[⟨0, 5, 1, .node⟩, ⟨1, 0, 1, .undefined⟩], [7, 8]⟩

/-- Decoder for the failure scenarios: header bytes `[2]` declare a datasize
beyond the block-size bound, header bytes `[3]` declare a 5-byte body. -/
def dmW6 : List Nat → List HField := fun hb =>
  if hb = [0] then [.typeF OSMHeaderBytes, .datasizeF 1]
  else if hb = [1] then [.typeF OSMDataBytes, .datasizeF 2]
  else if hb = [2] then [.typeF OSMDataBytes, .datasizeF 30000000]
  else [.typeF OSMDataBytes, .datasizeF 5]

/-- A synthetic header block for the failure scenarios. -/
def hdrW6 : SynthBlock := ⟨[0], [9]⟩

/-- One valid data block preceding the failing block. -/
def gsW6 : List SynthBlock := [⟨[1], [5, 6]⟩]

/-! ## Proofs -/

/-! ## Helper lemmas about `Nat.lor` on disjoint ranges -/

theorem lor_two_pow_mul : ∀ (k a b : Nat), a < 2 ^ k → Nat.lor a (2 ^ k * b) = a + 2 ^ k * b := by
  intro k
  induction k with
  | zero =>
    intro a b ha
    interval_cases a
    simp only [pow_zero, one_mul, Nat.zero_add]
    exact Nat.zero_or b
  | succ k ih =>
    intro a b ha
    have hd : Nat.bit (Nat.bodd a) (Nat.div2 a) = a := Nat.bit_decomp a
    have h2 : 2 ^ (k + 1) * b = Nat.bit false (2 ^ k * b) := by
      simp [Nat.bit_val, Nat.pow_succ]
      ring
    have hdiv : Nat.div2 a < 2 ^ k := by
      have := Nat.bit_val (Nat.bodd a) (Nat.div2 a)
      rw [hd] at this
      have hp : 2 ^ (k + 1) = 2 ^ k * 2 := Nat.pow_succ 2 k
      cases hb : Nat.bodd a <;> rw [hb] at this <;> simp at this <;> omega
    calc Nat.lor a (2 ^ (k + 1) * b)
        = Nat.lor (Nat.bit (Nat.bodd a) (Nat.div2 a)) (Nat.bit false (2 ^ k * b)) := by
          rw [hd, ← h2]
      _ = Nat.bit (Nat.bodd a || false) (Nat.lor (Nat.div2 a) (2 ^ k * b)) := by
          exact Nat.lor_bit (Nat.bodd a) (Nat.div2 a) false (2 ^ k * b)
      _ = Nat.bit (Nat.bodd a) (Nat.div2 a + 2 ^ k * b) := by
          rw [Bool.or_false, ih (Nat.div2 a) b hdiv]
      _ = a + 2 ^ (k + 1) * b := by
          have hv := Nat.bit_val (Nat.bodd a) (Nat.div2 a)
          rw [hd] at hv
          rw [Nat.bit_val, Nat.pow_succ]
          have hmul : 2 ^ k * 2 * b = 2 * (2 ^ k * b) := by ring
          omega

theorem charOfByte_small (b : Nat) (h : b < 128) : charOfByte b = (b : Int) := by
  unfold charOfByte
  rw [Nat.mod_eq_of_lt (by omega)]
  simp [h]

theorem charOfByte_big (b : Nat) (h1 : 128 ≤ b) (h2 : b < 256) :
    charOfByte b = (b : Int) - 256 := by
  unfold charOfByte
  rw [Nat.mod_eq_of_lt h2]
  simp [Nat.not_lt.mpr h1]

theorem toUInt32c_ofNat (n : Nat) (h : n < 2 ^ 32) : toUInt32c (n : Int) = n := by
  unfold toUInt32c
  rw [Int.emod_eq_of_lt (by positivity) (by exact_mod_cast h)]
  simp

theorem toUInt32c_negByte (b : Nat) (h1 : 128 ≤ b) (h2 : b < 256) :
    toUInt32c ((b : Int) - 256) = 2 ^ 32 - 256 + b := by
  unfold toUInt32c
  have h32 : (2 : Int) ^ 32 = 4294967296 := by norm_num
  have hv : ((b : Int) - 256) % (2 : Int) ^ 32 = (2 : Int) ^ 32 - 256 + b := by
    rw [h32]
    omega
  rw [hv, h32]
  omega

/-- Each byte lane of `get_size_in_network_byte_order`, after the `uint32_t`
wrap-around, contributes `d * 2^shift` for the three shifts only when the byte
has no high bit; the top byte's sign extension is shifted out entirely. -/
theorem lane0_eq (d0 : Nat) (h : d0 < 256) :
    toUInt32c (charOfByte d0) <<< 24 % 2 ^ 32 = d0 * 2 ^ 24 := by
  rcases Nat.lt_or_ge d0 128 with hc | hc
  · rw [charOfByte_small d0 hc, toUInt32c_ofNat d0 (by omega), Nat.shiftLeft_eq]
    omega
  · rw [charOfByte_big d0 hc h, toUInt32c_negByte d0 hc h, Nat.shiftLeft_eq]
    omega

theorem lane_small (d s : Nat) (hd : d < 128) (hs : d * 2 ^ s < 2 ^ 32) :
    toUInt32c (charOfByte d) <<< s % 2 ^ 32 = d * 2 ^ s := by
  rw [charOfByte_small d hd, toUInt32c_ofNat d (by omega), Nat.shiftLeft_eq]
  exact Nat.mod_eq_of_lt hs

/-- With no high bit in the lower three byte positions, the four lanes are
disjoint and the `|` chain computes the big-endian value. -/
theorem get_size_eq_bigEndian (d0 d1 d2 d3 : Nat)
    (h0 : d0 < 256) (h1 : d1 < 128) (h2 : d2 < 128) (h3 : d3 < 128) :
    get_size_in_network_byte_order d0 d1 d2 d3 = bigEndian4 d0 d1 d2 d3 := by
  unfold get_size_in_network_byte_order
  rw [lane0_eq d0 h0, lane_small d1 16 h1 (by omega), lane_small d2 8 h2 (by omega)]
  have e3 : toUInt32c (charOfByte d3) = d3 := by
    rw [charOfByte_small d3 h3]
    exact toUInt32c_ofNat d3 (by omega)
  rw [e3]
  have s2 : Nat.lor d3 (d2 * 2 ^ 8) = d3 + 2 ^ 8 * d2 := by
    rw [Nat.mul_comm d2 (2 ^ 8)]
    exact lor_two_pow_mul 8 d3 d2 (by omega)
  rw [s2]
  have s1 : Nat.lor (d3 + 2 ^ 8 * d2) (d1 * 2 ^ 16) = d3 + 2 ^ 8 * d2 + 2 ^ 16 * d1 := by
    rw [Nat.mul_comm d1 (2 ^ 16)]
    exact lor_two_pow_mul 16 (d3 + 2 ^ 8 * d2) d1 (by omega)
  rw [s1]
  have s0 : Nat.lor (d3 + 2 ^ 8 * d2 + 2 ^ 16 * d1) (d0 * 2 ^ 24)
      = d3 + 2 ^ 8 * d2 + 2 ^ 16 * d1 + 2 ^ 24 * d0 := by
    rw [Nat.mul_comm d0 (2 ^ 24)]
    exact lor_two_pow_mul 24 (d3 + 2 ^ 8 * d2 + 2 ^ 16 * d1) d0 (by omega)
  rw [s0]
  unfold bigEndian4
  ring


theorem encBlock_length (b : SynthBlock) :
    (encBlock b).length = 4 + b.headerBytes.length + b.body.length := by
  simp [encBlock]
  omega

theorem decode_ok_pos (fields : List HField) (expected : List Nat) (n : Nat)
    (h : decode_blob_header fields expected = .ok n) : 0 < n := by
  unfold decode_blob_header at h
  simp only [] at h
  split at h
  · cases h
  · split at h
    · injection h with heq
      omega
    · cases h

theorem get_size4_small (h : Nat) (hh : h < 128) : get_size4 [0, 0, 0, h] = h := by
  show get_size_in_network_byte_order 0 0 0 h = h
  rw [get_size_eq_bigEndian 0 0 0 h (by omega) (by omega) (by omega) hh]
  unfold bigEndian4
  omega

theorem readBytes_at (pre x : List Nat) (n : Nat) (h : n ≤ x.length) :
    readBytes (pre ++ x) pre.length n = some (x.take n) := by
  unfold readBytes
  rw [if_pos (by simp; omega), List.drop_left]

/-- Behaviour of `digest_and_skip_block` on a well-formed block sitting at
offset `pre.length`: it consumes the 4-byte prefix and the header message,
validates, and (for a data block) produces the index entry whose `file_offset`
is the start of the body. -/
theorem digest_spec (dm : List Nat → List HField) (pre rest : List Nat)
    (b : SynthBlock) (si : Bool)
    (hg : GoodBlock dm (if si then OSMDataBytes else OSMHeaderBytes) b) :
    digest_and_skip_block dm (pre ++ (encBlock b ++ rest)) pre.length si
      = .ok (b.headerBytes.length, b.body.length,
          if si then
            some ⟨pre.length + 4 + b.headerBytes.length, 0, b.body.length, .undefined⟩
          else none) := by
  obtain ⟨h64, hdec, hmax⟩ := hg
  have hsplit1 : pre ++ (encBlock b ++ rest)
      = pre ++ ([0, 0, 0, b.headerBytes.length] ++ (b.headerBytes ++ b.body ++ rest)) := by
    simp [encBlock]
  have h1 : readBytes (pre ++ (encBlock b ++ rest)) pre.length 4
      = some [0, 0, 0, b.headerBytes.length] := by
    rw [hsplit1, readBytes_at _ _ 4 (by simp)]
    rw [List.take_append_of_le_length (by simp)]
    rfl
  have hsplit2 : pre ++ (encBlock b ++ rest)
      = (pre ++ [0, 0, 0, b.headerBytes.length]) ++ (b.headerBytes ++ (b.body ++ rest)) := by
    simp [encBlock]
  have hoff2 : pre.length + 4 = (pre ++ [0, 0, 0, b.headerBytes.length]).length := by
    simp
  have h2 : readBytes (pre ++ (encBlock b ++ rest)) (pre.length + 4) b.headerBytes.length
      = some b.headerBytes := by
    rw [hsplit2, hoff2, readBytes_at _ _ _ (by simp)]
    rw [List.take_append_of_le_length (by simp), List.take_length]
  unfold digest_and_skip_block
  rw [h1]
  simp only [get_size4_small b.headerBytes.length
    (by unfold max_small_blob_header_size at h64; omega)]
  rw [if_neg (by omega)]
  rw [h2]
  dsimp only
  rw [hdec]
  dsimp only
  rw [if_neg (by omega)]

theorem buildLoop_step (dm : List Nat → List HField) (file : List Nat) (off : Nat)
    (acc : List pbf_block_start) (h : off < file.length) :
    buildLoop dm file off acc
      = match digest_and_skip_block dm file off true with
        | .error e => .error e
        | .ok (hs, ds, ent) => buildLoop dm file (off + 4 + hs + ds) (acc ++ ent.toList) := by
  rw [buildLoop, dif_pos h]

theorem buildLoop_exit_ok (dm : List Nat → List HField) (file : List Nat) (off : Nat)
    (acc : List pbf_block_start) (h : off = file.length) :
    buildLoop dm file off acc = .ok acc := by
  rw [buildLoop, dif_neg (by omega), if_neg (by omega)]

theorem buildLoop_exit_err (dm : List Nat → List HField) (file : List Nat) (off : Nat)
    (acc : List pbf_block_start) (h : off > file.length) :
    buildLoop dm file off acc = .error .fileSizeMismatch := by
  rw [buildLoop, dif_neg (by omega), if_pos h]

/-- Running the constructor loop over a run of well-formed data blocks appends
exactly the spec-predicted entries and advances the offset past those blocks,
whatever bytes follow. -/
theorem buildLoop_advance (dm : List Nat → List HField) (gs : List SynthBlock) :
    ∀ (pre tail : List Nat) (acc : List pbf_block_start),
      (∀ b ∈ gs, GoodBlock dm OSMDataBytes b) →
      buildLoop dm (pre ++ ((gs.map encBlock).flatten ++ tail)) pre.length acc
        = buildLoop dm (pre ++ ((gs.map encBlock).flatten ++ tail))
            (pre.length + ((gs.map encBlock).flatten).length)
            (acc ++ expectedEntries pre.length gs) := by
  induction gs with
  | nil =>
    intro pre tail acc _
    simp [expectedEntries]
  | cons b bs ih =>
    intro pre tail acc hwf
    have hb : GoodBlock dm OSMDataBytes b := hwf b (by simp)
    have hbs : ∀ x ∈ bs, GoodBlock dm OSMDataBytes x := fun x hx => hwf x (by simp [hx])
    have hassoc : pre ++ (((b :: bs).map encBlock).flatten ++ tail)
        = pre ++ (encBlock b ++ ((bs.map encBlock).flatten ++ tail)) := by
      simp
    rw [hassoc]
    have hlt : pre.length
        < (pre ++ (encBlock b ++ ((bs.map encBlock).flatten ++ tail))).length := by
      simp [encBlock]
    rw [buildLoop_step dm _ _ _ hlt]
    rw [digest_spec dm pre ((bs.map encBlock).flatten ++ tail) b true (by simpa using hb)]
    dsimp only
    have hassoc2 : pre ++ (encBlock b ++ ((bs.map encBlock).flatten ++ tail))
        = (pre ++ encBlock b) ++ ((bs.map encBlock).flatten ++ tail) := by
      simp
    have hoff : pre.length + 4 + b.headerBytes.length + b.body.length
        = (pre ++ encBlock b).length := by
      simp [encBlock]
      omega
    rw [hassoc2, hoff]
    rw [ih (pre ++ encBlock b) tail _ hbs]
    congr 1
    · simp
      omega
    · simp [expectedEntries, encBlock_length]

/-- Full specification of `PbfBlockIndexTable` construction on a well-formed
container file: one well-formed header block followed by well-formed data
blocks yields exactly the spec-predicted index entries. -/
theorem buildIndex_spec (dm : List Nat → List HField) (hdr : SynthBlock)
    (datas : List SynthBlock) (hhdr : GoodBlock dm OSMHeaderBytes hdr)
    (hdatas : ∀ b ∈ datas, GoodBlock dm OSMDataBytes b) :
    buildIndex dm (encFile hdr datas)
      = .ok (expectedEntries (encBlock hdr).length datas) := by
  unfold buildIndex encFile
  have hd : digest_and_skip_block dm (encBlock hdr ++ (datas.map encBlock).flatten) 0 false
      = .ok (hdr.headerBytes.length, hdr.body.length, none) := by
    have := digest_spec dm [] ((datas.map encBlock).flatten) hdr false (by simpa using hhdr)
    simpa using this
  rw [hd]
  dsimp only
  rw [show 4 + hdr.headerBytes.length + hdr.body.length = (encBlock hdr).length from
    (encBlock_length hdr).symm]
  rw [show encBlock hdr ++ (datas.map encBlock).flatten
      = encBlock hdr ++ ((datas.map encBlock).flatten ++ []) from by simp]
  rw [buildLoop_advance dm datas (encBlock hdr) [] [] hdatas]
  rw [buildLoop_exit_ok _ _ _ _ (by simp)]
  simp

/-- Behaviour of `digest_and_skip_block` on a raw block whose prefix and header
message are present, without assuming the body is: the outcome is decided by
the decoded header alone, since the body bytes are never read. -/
theorem digest_raw (dm : List Nat → List HField) (pre hb tailrest : List Nat) (si : Bool)
    (h64 : hb.length ≤ max_small_blob_header_size) :
    digest_and_skip_block dm (pre ++ ([0, 0, 0, hb.length] ++ (hb ++ tailrest)))
        pre.length si
      = match decode_blob_header (dm hb) (if si then OSMDataBytes else OSMHeaderBytes) with
        | .error e => .error e
        | .ok ds =>
          if ds > max_block_size then .error .invalidBlockSize
          else .ok (hb.length, ds,
            if si then some ⟨pre.length + 4 + hb.length, 0, ds, .undefined⟩ else none) := by
  have h1 : readBytes (pre ++ ([0, 0, 0, hb.length] ++ (hb ++ tailrest))) pre.length 4
      = some [0, 0, 0, hb.length] := by
    rw [readBytes_at _ _ 4 (by simp)]
    rw [List.take_append_of_le_length (by simp)]
    rfl
  have hsplit2 : pre ++ ([0, 0, 0, hb.length] ++ (hb ++ tailrest))
      = (pre ++ [0, 0, 0, hb.length]) ++ (hb ++ tailrest) := by
    simp
  have hoff2 : pre.length + 4 = (pre ++ [0, 0, 0, hb.length]).length := by
    simp
  have h2 : readBytes (pre ++ ([0, 0, 0, hb.length] ++ (hb ++ tailrest)))
      (pre.length + 4) hb.length = some hb := by
    rw [hsplit2, hoff2, readBytes_at _ _ _ (by simp)]
    rw [List.take_append_of_le_length (by simp), List.take_length]
  unfold digest_and_skip_block
  rw [h1]
  simp only [get_size4_small hb.length (by unfold max_small_blob_header_size at h64; omega)]
  rw [if_neg (by omega)]
  rw [h2]

/-- Fewer than 4 bytes remain at the loop offset: the blob-header-size read
hits EOF. -/
theorem digest_eof_size (dm : List Nat → List HField) (pre tail : List Nat) (si : Bool)
    (hshort : tail.length < 4) :
    digest_and_skip_block dm (pre ++ tail) pre.length si = .error .eofBlobHeaderSize := by
  unfold digest_and_skip_block readBytes
  rw [if_neg (by simp; omega)]

/-- After digesting a well-formed header block and a run of well-formed data
blocks, the constructor is running its loop at the offset just past them, with
exactly the predicted entries accumulated, whatever bytes follow. -/
theorem buildIndex_to_loop (dm : List Nat → List HField) (hdr : SynthBlock)
    (gs : List SynthBlock) (tail : List Nat) (hhdr : GoodBlock dm OSMHeaderBytes hdr)
    (hgs : ∀ b ∈ gs, GoodBlock dm OSMDataBytes b) :
    buildIndex dm (encFile hdr gs ++ tail)
      = buildLoop dm (encBlock hdr ++ ((gs.map encBlock).flatten ++ tail))
          ((encBlock hdr).length + ((gs.map encBlock).flatten).length)
          (expectedEntries (encBlock hdr).length gs) := by
  unfold buildIndex
  have hd : digest_and_skip_block dm (encFile hdr gs ++ tail) 0 false
      = .ok (hdr.headerBytes.length, hdr.body.length, none) := by
    have := digest_spec dm [] ((gs.map encBlock).flatten ++ tail) hdr false
      (by simpa using hhdr)
    simpa [encFile] using this
  rw [hd]
  dsimp only
  rw [show 4 + hdr.headerBytes.length + hdr.body.length = (encBlock hdr).length from
    (encBlock_length hdr).symm]
  have hfile : encFile hdr gs ++ tail = encBlock hdr ++ ((gs.map encBlock).flatten ++ tail) := by
    simp [encFile]
  rw [hfile]
  rw [buildLoop_advance dm gs (encBlock hdr) tail [] hgs]
  rfl

/-- Scenario: after any run of valid blocks, a block header declaring a
`datasize` beyond the block-size bound makes the whole construction fail. -/
theorem buildIndex_oversize (dm : List Nat → List HField) (hdr : SynthBlock)
    (gs : List SynthBlock) (hb suffix : List Nat) (ds : Nat)
    (hhdr : GoodBlock dm OSMHeaderBytes hdr)
    (hgs : ∀ b ∈ gs, GoodBlock dm OSMDataBytes b)
    (h64 : hb.length ≤ max_small_blob_header_size)
    (hdec : decode_blob_header (dm hb) OSMDataBytes = .ok ds)
    (hbig : ds > max_block_size) :
    buildIndex dm (encFile hdr gs ++ ([0, 0, 0, hb.length] ++ (hb ++ suffix)))
      = .error .invalidBlockSize := by
  rw [buildIndex_to_loop dm hdr gs _ hhdr hgs]
  have hpre : (encBlock hdr).length + ((gs.map encBlock).flatten).length
      = (encBlock hdr ++ (gs.map encBlock).flatten).length := by
    simp
  have hfile : encBlock hdr ++ ((gs.map encBlock).flatten
        ++ ([0, 0, 0, hb.length] ++ (hb ++ suffix)))
      = (encBlock hdr ++ (gs.map encBlock).flatten)
        ++ ([0, 0, 0, hb.length] ++ (hb ++ suffix)) := by
    simp
  rw [hfile, hpre]
  rw [buildLoop_step dm _ _ _ (by simp)]
  rw [digest_raw dm (encBlock hdr ++ (gs.map encBlock).flatten) hb suffix true h64]
  rw [show (if true = true then OSMDataBytes else OSMHeaderBytes) = OSMDataBytes from by simp]
  rw [hdec]
  dsimp only
  rw [if_pos hbig]

/-- Scenario: a file truncated inside a block's 4-byte length prefix makes the
whole construction fail with an EOF error. -/
theorem buildIndex_truncated_header (dm : List Nat → List HField) (hdr : SynthBlock)
    (gs : List SynthBlock) (tail : List Nat)
    (hhdr : GoodBlock dm OSMHeaderBytes hdr)
    (hgs : ∀ b ∈ gs, GoodBlock dm OSMDataBytes b)
    (hpos : 0 < tail.length) (h4 : tail.length < 4) :
    buildIndex dm (encFile hdr gs ++ tail) = .error .eofBlobHeaderSize := by
  rw [buildIndex_to_loop dm hdr gs tail hhdr hgs]
  have hfile : encBlock hdr ++ ((gs.map encBlock).flatten ++ tail)
      = (encBlock hdr ++ (gs.map encBlock).flatten) ++ tail := by
    simp
  have hpre : (encBlock hdr).length + ((gs.map encBlock).flatten).length
      = (encBlock hdr ++ (gs.map encBlock).flatten).length := by
    simp
  rw [hfile, hpre]
  rw [buildLoop_step dm _ _ _ (by simp; omega)]
  rw [digest_eof_size dm _ tail true h4]

/-- Scenario: a file truncated inside the last block's body is not detected by
a read (bodies are skipped, not read), but the final offset overshoots the file
size and construction fails. -/
theorem buildIndex_overshoot (dm : List Nat → List HField) (hdr : SynthBlock)
    (gs : List SynthBlock) (hb body2 : List Nat) (ds : Nat)
    (hhdr : GoodBlock dm OSMHeaderBytes hdr)
    (hgs : ∀ b ∈ gs, GoodBlock dm OSMDataBytes b)
    (h64 : hb.length ≤ max_small_blob_header_size)
    (hdec : decode_blob_header (dm hb) OSMDataBytes = .ok ds)
    (hsmall : ds ≤ max_block_size) (htrunc : body2.length < ds) :
    buildIndex dm (encFile hdr gs ++ ([0, 0, 0, hb.length] ++ (hb ++ body2)))
      = .error .fileSizeMismatch := by
  rw [buildIndex_to_loop dm hdr gs _ hhdr hgs]
  have hfile : encBlock hdr ++ ((gs.map encBlock).flatten
        ++ ([0, 0, 0, hb.length] ++ (hb ++ body2)))
      = (encBlock hdr ++ (gs.map encBlock).flatten)
        ++ ([0, 0, 0, hb.length] ++ (hb ++ body2)) := by
    simp
  have hpre : (encBlock hdr).length + ((gs.map encBlock).flatten).length
      = (encBlock hdr ++ (gs.map encBlock).flatten).length := by
    simp
  rw [hfile, hpre]
  rw [buildLoop_step dm _ _ _ (by simp)]
  rw [digest_raw dm (encBlock hdr ++ (gs.map encBlock).flatten) hb body2 true h64]
  rw [show (if true = true then OSMDataBytes else OSMHeaderBytes) = OSMDataBytes from by simp]
  rw [hdec]
  dsimp only
  rw [if_neg (by omega)]
  dsimp only
  rw [buildLoop_exit_err dm _ _ _ (by simp; omega)]

/-- Case analysis of one `get_parsed_block` call as a state transformer:
either the table is unchanged (a thrown error), or exactly the called entry is
replaced by an entry with the same offset and size, unchanged whenever its
first-item cache was already filled. -/
theorem tableStep_cases (D : List Nat → osm_entity_bits → read_meta → List DecItem)
    (s : TableState) (c : Nat × read_meta) :
    tableStep D s c = s ∨
    ∃ (h : c.1 < s.block_starts.length) (bs2 : pbf_block_start),
      tableStep D s c = ⟨s.block_starts.set c.1 bs2, s.file⟩ ∧
      entryShape bs2 = entryShape (s.block_starts.get ⟨c.1, h⟩) ∧
      ((s.block_starts.get ⟨c.1, h⟩).first_item_type_or_zero ≠ item_type.undefined →
        bs2 = s.block_starts.get ⟨c.1, h⟩) := by
  unfold tableStep get_parsed_block
  by_cases h : c.1 < s.block_starts.length
  · rw [dif_pos h]
    dsimp only
    cases hr : readBytes s.file (s.block_starts.get ⟨c.1, h⟩).file_offset
        (s.block_starts.get ⟨c.1, h⟩).datasize with
    | none =>
      left
      rfl
    | some input_buffer =>
      right
      refine ⟨h, cacheUpdate (s.block_starts.get ⟨c.1, h⟩)
        (D input_buffer osm_entity_bits.all c.2), rfl, ?_, ?_⟩
      · unfold cacheUpdate
        split
        · split <;> simp [entryShape]
        · rfl
      · intro hne
        unfold cacheUpdate
        rw [if_neg hne]
  · rw [dif_neg h]
    left
    rfl

theorem tableStep_length (D : List Nat → osm_entity_bits → read_meta → List DecItem)
    (s : TableState) (c : Nat × read_meta) :
    (tableStep D s c).block_starts.length = s.block_starts.length := by
  rcases tableStep_cases D s c with heq | ⟨h, bs2, heq, _, _⟩
  · rw [heq]
  · rw [heq]
    simp

theorem tableStep_shape (D : List Nat → osm_entity_bits → read_meta → List DecItem)
    (s : TableState) (c : Nat × read_meta) (j : Nat) :
    ((tableStep D s c).block_starts[j]?).map entryShape
      = (s.block_starts[j]?).map entryShape := by
  rcases tableStep_cases D s c with heq | ⟨h, bs2, heq, hshape, _⟩
  · rw [heq]
  · rw [heq]
    dsimp only
    by_cases hj : c.1 = j
    · subst hj
      rw [List.getElem?_set_self (by omega), List.getElem?_eq_getElem h]
      simpa using hshape
    · rw [List.getElem?_set_ne hj]

theorem tableStep_frozen (D : List Nat → osm_entity_bits → read_meta → List DecItem)
    (s : TableState) (c : Nat × read_meta) (j : Nat) (e : pbf_block_start)
    (he : s.block_starts[j]? = some e)
    (hne : e.first_item_type_or_zero ≠ item_type.undefined) :
    (tableStep D s c).block_starts[j]? = some e := by
  rcases tableStep_cases D s c with heq | ⟨h, bs2, heq, _, hfroz⟩
  · rw [heq]
    exact he
  · rw [heq]
    dsimp only
    by_cases hj : c.1 = j
    · subst hj
      have hbs : s.block_starts.get ⟨c.1, h⟩ = e := by
        rw [List.getElem?_eq_getElem h] at he
        exact Option.some.inj he
      rw [List.getElem?_set_self (by omega)]
      rw [hfroz (by rw [hbs]; exact hne), hbs]
    · rw [List.getElem?_set_ne hj]
      exact he

theorem runCalls_length (D : List Nat → osm_entity_bits → read_meta → List DecItem)
    (cs : List (Nat × read_meta)) (s : TableState) :
    (runCalls D cs s).block_starts.length = s.block_starts.length := by
  induction cs generalizing s with
  | nil => rfl
  | cons c cs ih =>
    unfold runCalls at *
    rw [List.foldl_cons, ih (tableStep D s c), tableStep_length]

theorem runCalls_shape (D : List Nat → osm_entity_bits → read_meta → List DecItem)
    (cs : List (Nat × read_meta)) (s : TableState) (j : Nat) :
    ((runCalls D cs s).block_starts[j]?).map entryShape
      = (s.block_starts[j]?).map entryShape := by
  induction cs generalizing s with
  | nil => rfl
  | cons c cs ih =>
    unfold runCalls at *
    rw [List.foldl_cons, ih (tableStep D s c), tableStep_shape]

theorem runCalls_frozen (D : List Nat → osm_entity_bits → read_meta → List DecItem)
    (cs : List (Nat × read_meta)) (s : TableState) (j : Nat) (e : pbf_block_start)
    (he : s.block_starts[j]? = some e)
    (hne : e.first_item_type_or_zero ≠ item_type.undefined) :
    (runCalls D cs s).block_starts[j]? = some e := by
  induction cs generalizing s with
  | nil => exact he
  | cons c cs ih =>
    unfold runCalls at *
    rw [List.foldl_cons]
    exact ih (tableStep D s c) (tableStep_frozen D s c j e he hne)

/-- The one-time cache fill of `get_parsed_block`: a successful call on an
entry whose first-item cache is still at the sentinel rewrites exactly that
entry, to the first decoded item's id and type (or leaves it at the sentinel
when the decoded buffer is empty). -/
theorem get_parsed_block_cache (D : List Nat → osm_entity_bits → read_meta → List DecItem)
    (s : TableState) (i : Nat) (m : read_meta) (buf : List DecItem) (s2 : TableState)
    (h : get_parsed_block D s i m = .ok (buf, s2)) (e : pbf_block_start)
    (he : s.block_starts[i]? = some e)
    (hu : e.first_item_type_or_zero = item_type.undefined) :
    (buf = [] → s2.block_starts[i]? = some e) ∧
    (∀ (it : DecItem) (rest : List DecItem), buf = it :: rest →
      s2.block_starts[i]?
        = some { e with first_item_id_or_zero := it.id,
                        first_item_type_or_zero := it.ty }) := by
  unfold get_parsed_block at h
  by_cases hi : i < s.block_starts.length
  · rw [dif_pos hi] at h
    have hbs : s.block_starts.get ⟨i, hi⟩ = e := by
      rw [List.getElem?_eq_getElem hi] at he
      exact Option.some.inj he
    rw [hbs] at h
    dsimp only at h
    cases hr : readBytes s.file e.file_offset e.datasize with
    | none =>
      rw [hr] at h
      cases h
    | some input_buffer =>
      rw [hr] at h
      dsimp only at h
      injection h with h2
      injection h2 with hbuf hst
      constructor
      · intro hnil
        rw [← hst]
        dsimp only
        rw [List.getElem?_set_self (by omega)]
        unfold cacheUpdate
        rw [if_pos hu, hbuf, hnil]
      · intro it rest hcons
        rw [← hst]
        dsimp only
        rw [List.getElem?_set_self (by omega)]
        unfold cacheUpdate
        rw [if_pos hu, hbuf, hcons]
  · rw [dif_neg hi] at h
    cases h

/-- Acceptance condition of the source's `strncmp(expected, type, type.size())`
check: for NUL-free strings it accepts exactly the type strings that are a
prefix (`take`-equality) of the expected string — including the empty string
and strict prefixes, not only the exact string. -/
theorem strncmpEq_take (t : List Nat) : ∀ (a : List Nat), 0 ∉ a → 0 ∉ t →
    (strncmpEq (a ++ [0]) t t.length = true ↔ a.take t.length = t) := by
  induction t with
  | nil =>
    intro a _ _
    simp [strncmpEq]
  | cons c t2 ih =>
    intro a ha ht
    have hc : c ≠ 0 := by
      intro hc0
      exact ht (by simp [hc0])
    have ht2 : 0 ∉ t2 := by
      intro hmem
      exact ht (by simp [hmem])
    cases a with
    | nil =>
      constructor
      · intro habs
        have hred : strncmpEq (([] : List Nat) ++ [0]) (c :: t2) (c :: t2).length = false := by
          show strncmpEq [0] (c :: t2) (t2.length + 1) = false
          unfold strncmpEq
          rw [if_pos (Ne.symm hc)]
        rw [hred] at habs
        cases habs
      · intro habs
        simp at habs
    | cons x a2 =>
      have hx : x ≠ 0 := by
        intro hx0
        exact ha (by simp [hx0])
      have ha2 : 0 ∉ a2 := by
        intro hmem
        exact ha (by simp [hmem])
      show strncmpEq (x :: (a2 ++ [0])) (c :: t2) (t2.length + 1) = true ↔ _
      by_cases hxc : x = c
      · subst hxc
        unfold strncmpEq
        rw [if_neg (by omega), if_neg hx]
        rw [ih a2 ha2 ht2]
        simp
      · unfold strncmpEq
        rw [if_pos hxc]
        constructor
        · intro habs
          cases habs
        · intro habs
          simp at habs
          exact absurd habs.1 hxc

/-- `decode_blob_header` on a simple two-field message: accepted exactly when
the type string is a prefix of the expected string. -/
theorem decode_blob_header_typeCheck (ty expected : List Nat) (ds : Nat)
    (hty : 0 ∉ ty) (hexp : 0 ∉ expected) (hpos : 0 < ds) (hlt : ds < 2 ^ 31) :
    decode_blob_header [HField.typeF ty, HField.datasizeF (ds : Int)] expected
      = (if expected.take ty.length = ty then .ok ds else .error .unexpectedType) := by
  have hfold : headerFold [HField.typeF ty, HField.datasizeF (ds : Int)] = (ty, ds) := by
    unfold headerFold toSizeT
    simp [List.foldl]
    rw [Int.emod_eq_of_lt (by positivity) (by push_cast; omega)]
    simp
  unfold decode_blob_header
  rw [hfold]
  dsimp only
  rw [if_neg (by omega)]
  by_cases hp : expected.take ty.length = ty
  · rw [if_pos ((strncmpEq_take ty expected hexp hty).mpr hp), if_pos hp]
  · rw [if_neg ?hns, if_neg hp]
    intro habs
    exact hp ((strncmpEq_take ty expected hexp hty).mp habs)

/-- `padded_length` is the least multiple of 8 at or above `n`. -/
theorem padded_length_ge (n : Nat) : n ≤ padded_length n := by
  unfold padded_length
  omega

theorem padded_length_three : padded_length (string_size_type_size + 1) = 8 := by decide

theorem padded_length_one : padded_length 1 = 8 := by decide

/-- Closed form of `OSMObjectBuilder::set_user` on a freshly constructed
object builder: the assertion passes, the name lands after the 2-byte size
slot, the stored user size becomes `length + 1`, and an extra zero-filled
padded reservation happens exactly when the name exceeds the 5 initially
available bytes. -/
theorem set_user_obj_spec (objBytes user : List Nat) :
    OSMObjectBuilder.set_user (mkOSMObjectBuilder objBytes) user
      = some ⟨objBytes.length,
          objBytes ++ List.replicate 2 0 ++ user
            ++ List.replicate
              (8 + (if user.length > 5 then padded_length (user.length - 5) else 0)
                - (2 + user.length)) 0,
          objBytes.length + 8
            + (if user.length > 5 then padded_length (user.length - 5) else 0),
          user.length + 1⟩ := by
  unfold OSMObjectBuilder.set_user mkOSMObjectBuilder
  rw [padded_length_three]
  rw [if_pos (by constructor <;> simp [padded_length, string_size_type_size])]
  rw [show (8 : Nat) - string_size_type_size - 1 = 5 from by decide]
  dsimp only
  congr 1
  have hdata : objBytes ++ List.replicate 8 0
        ++ List.replicate (if user.length > 5 then padded_length (user.length - 5) else 0) 0
      = objBytes ++ List.replicate
          (8 + (if user.length > 5 then padded_length (user.length - 5) else 0)) 0 := by
    rw [List.replicate_add]
    simp
  rw [hdata]
  have hslot : 2 + user.length
      ≤ 8 + (if user.length > 5 then padded_length (user.length - 5) else 0) := by
    by_cases h5 : user.length > 5
    · rw [if_pos h5]
      have := padded_length_ge (user.length - 5)
      omega
    · rw [if_neg h5]
      omega
  have htake : (objBytes ++ List.replicate
        (8 + (if user.length > 5 then padded_length (user.length - 5) else 0)) 0).take
        (objBytes.length + string_size_type_size)
      = objBytes ++ List.replicate 2 0 := by
    rw [List.take_append]
    rw [List.take_replicate]
    rw [show string_size_type_size = 2 from rfl]
    rw [show min 2 (8 + (if user.length > 5 then padded_length (user.length - 5) else 0))
        = 2 from by omega]
  have hdrop : (objBytes ++ List.replicate
        (8 + (if user.length > 5 then padded_length (user.length - 5) else 0)) 0).drop
        (objBytes.length + string_size_type_size + user.length)
      = List.replicate
          (8 + (if user.length > 5 then padded_length (user.length - 5) else 0)
            - (2 + user.length)) 0 := by
    rw [show objBytes.length + string_size_type_size + user.length
        = objBytes.length + (2 + user.length) from by
      rw [show string_size_type_size = 2 from rfl]
      omega]
    rw [List.drop_append]
    rw [List.drop_replicate]
  rw [htake, hdrop]

/-- Closed form of `ChangesetBuilder::set_user` on a freshly constructed
changeset builder: the name lands directly after the record, the stored user
size becomes `length + 1`, and an extra zero-filled padded reservation happens
exactly when the name exceeds the 7 initially available bytes. -/
theorem set_user_cs_spec (csBytes user : List Nat) :
    ChangesetBuilder.set_user (mkChangesetBuilder csBytes) user
      = some ⟨csBytes.length,
          csBytes ++ user
            ++ List.replicate
              (8 + (if user.length > 7 then padded_length (user.length - 7) else 0)
                - user.length) 0,
          csBytes.length + 8
            + (if user.length > 7 then padded_length (user.length - 7) else 0),
          user.length + 1⟩ := by
  unfold ChangesetBuilder.set_user mkChangesetBuilder
  rw [padded_length_one]
  rw [if_pos (by constructor <;> simp [padded_length])]
  rw [show (8 : Nat) - 1 = 7 from by decide]
  dsimp only
  congr 1
  have hdata : csBytes ++ List.replicate 8 0
        ++ List.replicate (if user.length > 7 then padded_length (user.length - 7) else 0) 0
      = csBytes ++ List.replicate
          (8 + (if user.length > 7 then padded_length (user.length - 7) else 0)) 0 := by
    rw [List.replicate_add]
    simp
  rw [hdata]
  have htake : (csBytes ++ List.replicate
        (8 + (if user.length > 7 then padded_length (user.length - 7) else 0)) 0).take
        csBytes.length
      = csBytes := by
    exact List.take_left csBytes _
  have hdrop : (csBytes ++ List.replicate
        (8 + (if user.length > 7 then padded_length (user.length - 7) else 0)) 0).drop
        (csBytes.length + user.length)
      = List.replicate
          (8 + (if user.length > 7 then padded_length (user.length - 7) else 0)
            - user.length) 0 := by
    rw [List.drop_append]
    rw [List.drop_replicate]
  rw [htake, hdrop]

/-- Under strict begin/end alternation started with no pending comment, no
assertion ever fires: a run either completes with no pending comment (so the
destructor's assertion passes too) or stops at a length error, never at an
assertion failure. -/
theorem runDisc_alternating_aux (n : Nat) : ∀ (ops : List DiscOp) (s : DiscState),
    ops.length ≤ n → alternatingOps ops = true → s.pending = false →
    (runDisc ops s).1 ≠ some BuildError.assertFail ∧
    ((runDisc ops s).1 = none → (runDisc ops s).2.pending = false) := by
  induction n with
  | zero =>
    intro ops s hlen halt hp
    cases ops with
    | nil => simp [runDisc, hp]
    | cons op rest => simp at hlen
  | succ n ih =>
    intro ops s hlen halt hp
    cases ops with
    | nil => simp [runDisc, hp]
    | cons op rest =>
      cases op with
      | commentText t =>
        exact absurd halt (by simp [alternatingOps])
      | comment u =>
        cases rest with
        | nil => exact absurd halt (by simp [alternatingOps])
        | cons op2 rest2 =>
          cases op2 with
          | comment u2 => exact absurd halt (by simp [alternatingOps])
          | commentText t =>
            have halt2 : alternatingOps rest2 = true := by
              simpa [alternatingOps] using halt
            unfold runDisc discStep add_comment
            dsimp only
            rw [if_neg (by simp [hp])]
            by_cases hu : u.length > max_osm_string_length
            · rw [if_pos hu]
              simp
            · rw [if_neg hu]
              unfold runDisc discStep add_comment_text
              dsimp only
              rw [if_neg (by simp)]
              by_cases htl : t.length > changeset_comment_size_max - 1
              · rw [if_pos htl]
                simp
              · rw [if_neg htl]
                dsimp only
                exact ih rest2 _ (by simp at hlen; omega) halt2 rfl

/-! ## Claims -/

/-- Claim C1: for every well-formed container file of one header block and
data blocks with body sizes S1..Sn, constructing the index and reading
`block_starts()` yields exactly n entries in file order; entry i has
`datasize` Si, `file_offset` equal to the cumulative offset of block i's body
(all preceding 4-byte prefixes, header-message bytes and body bytes), and its
first-item id/type at the zero/undefined sentinel. -/
theorem claim_C1 (dm : List Nat → List HField) (hdr : SynthBlock)
    (datas : List SynthBlock) (hhdr : GoodBlock dm OSMHeaderBytes hdr)
    (hdatas : ∀ b ∈ datas, GoodBlock dm OSMDataBytes b) :
    buildIndex dm (encFile hdr datas)
      = .ok (expectedEntries (encBlock hdr).length datas) :=
  buildIndex_spec dm hdr datas hhdr hdatas

/-- Witness for C1: a concrete file with data-body sizes 2, 3, 4 produces
exactly the three predicted entries. -/
theorem claim_C1_witness :
    buildIndex dmW1 (encFile hdrW1 datasW1)
      = .ok (expectedEntries (encBlock hdrW1).length datasW1) :=
  claim_C1 dmW1 hdrW1 datasW1 (by decide) (by decide)

/-- Counterexample for C2 as stated: a blob whose type string `OSM` is a
strict prefix of the expected `OSMHeader` is accepted — index construction
succeeds — although the claim says any type differing from the expected
string (including a strict prefix) is rejected with `UnexpectedType`. -/
theorem claim_C2_counterexample :
    [79, 83, 77] ≠ OSMHeaderBytes ∧
    dmCE2 [] = [HField.typeF [79, 83, 77], HField.datasizeF 1] ∧
    buildIndex dmCE2 (encFile ⟨[], [9]⟩ []) = .ok [] := by
  refine ⟨by decide, rfl, ?_⟩
  exact buildIndex_spec dmCE2 ⟨[], [9]⟩ [] (by decide) (by decide)

/-- Claim C2 (amended): for a NUL-free decoded type string, the header is
rejected with `UnexpectedType` exactly when the type string is not a prefix of
the expected string for its position (`OSMHeader` first, `OSMData` after);
prefixes — including the empty string and strict prefixes — are accepted,
because the check is `strncmp` bounded by the type string's own length. -/
theorem claim_C2 (ty : List Nat) (ds : Nat) (hty : 0 ∉ ty)
    (hpos : 0 < ds) (hlt : ds < 2 ^ 31) :
    (decode_blob_header [HField.typeF ty, HField.datasizeF (ds : Int)] OSMHeaderBytes
      = if OSMHeaderBytes.take ty.length = ty then .ok ds
        else .error .unexpectedType) ∧
    (decode_blob_header [HField.typeF ty, HField.datasizeF (ds : Int)] OSMDataBytes
      = if OSMDataBytes.take ty.length = ty then .ok ds
        else .error .unexpectedType) :=
  ⟨decode_blob_header_typeCheck ty OSMHeaderBytes ds hty (by decide) hpos hlt,
   decode_blob_header_typeCheck ty OSMDataBytes ds hty (by decide) hpos hlt⟩

/-- Witness for C2 (amended): the type string `X` is not a prefix of either
expected string and is rejected at both positions. -/
theorem claim_C2_witness :
    (decode_blob_header [HField.typeF [88], HField.datasizeF ((3 : Nat) : Int)] OSMHeaderBytes
      = if OSMHeaderBytes.take [88].length = [88] then .ok 3
        else .error .unexpectedType) ∧
    (decode_blob_header [HField.typeF [88], HField.datasizeF ((3 : Nat) : Int)] OSMDataBytes
      = if OSMDataBytes.take [88].length = [88] then .ok 3
        else .error .unexpectedType) :=
  claim_C2 [88] 3 (by decide) (by decide) (by decide)

/-- Claim C3: the entity-kind filter handed to the external block-decode
primitive is always `osm_entity_bits::all`, whatever `metadata_flags` says:
two decoders that agree whenever asked for all entity kinds produce identical
`get_parsed_block` results on every table, index and metadata flag. -/
theorem claim_C3 (D1 D2 : List Nat → osm_entity_bits → read_meta → List DecItem)
    (hagree : ∀ (buf : List Nat) (m : read_meta),
      D1 buf osm_entity_bits.all m = D2 buf osm_entity_bits.all m)
    (s : TableState) (i : Nat) (m : read_meta) :
    get_parsed_block D1 s i m = get_parsed_block D2 s i m := by
  unfold get_parsed_block
  by_cases h : i < s.block_starts.length
  · rw [dif_pos h, dif_pos h]
    dsimp only
    cases hr : readBytes s.file (s.block_starts.get ⟨i, h⟩).file_offset
        (s.block_starts.get ⟨i, h⟩).datasize with
    | none => rfl
    | some input_buffer =>
      dsimp only
      rw [hagree input_buffer m]
  · rw [dif_neg h, dif_neg h]

/-- Witness for C3: a filter-sensitive decoder and the trivial decoder agree
at `all`, so `get_parsed_block` cannot tell them apart. -/
theorem claim_C3_witness :
    get_parsed_block Dw3a sW3 0 read_meta.yes = get_parsed_block Dw3b sW3 0 read_meta.yes :=
  claim_C3 Dw3a Dw3b (by intro buf m; rfl) sW3 0 read_meta.yes

/-- Claim C4: across any sequence of `get_parsed_block` calls, every entry's
`file_offset` and `datasize` are unchanged; an entry whose first-item cache is
already resolved is never written again; and a successful call on a
still-unresolved entry resolves it exactly once — to the first decoded item's
id and type, or leaves it unresolved when the decoded buffer is empty. -/
theorem claim_C4 (D : List Nat → osm_entity_bits → read_meta → List DecItem)
    (cs : List (Nat × read_meta)) (s : TableState) :
    ((runCalls D cs s).block_starts.length = s.block_starts.length ∧
      ∀ (j : Nat), ((runCalls D cs s).block_starts[j]?).map entryShape
        = (s.block_starts[j]?).map entryShape) ∧
    (∀ (j : Nat) (e : pbf_block_start), s.block_starts[j]? = some e →
      e.first_item_type_or_zero ≠ item_type.undefined →
      (runCalls D cs s).block_starts[j]? = some e) ∧
    (∀ (s0 : TableState) (i : Nat) (m : read_meta) (buf : List DecItem)
        (s2 : TableState) (e : pbf_block_start),
      get_parsed_block D s0 i m = .ok (buf, s2) →
      s0.block_starts[i]? = some e →
      e.first_item_type_or_zero = item_type.undefined →
      (buf = [] → s2.block_starts[i]? = some e) ∧
      (∀ (it : DecItem) (rest : List DecItem), buf = it :: rest →
        s2.block_starts[i]?
          = some { e with first_item_id_or_zero := it.id,
                          first_item_type_or_zero := it.ty })) :=
  ⟨⟨runCalls_length D cs s, fun j => runCalls_shape D cs s j⟩,
   fun j e he hne => runCalls_frozen D cs s j e he hne,
   fun s0 i m buf s2 e h he hu => get_parsed_block_cache D s0 i m buf s2 h e he hu⟩

/-- Witness for C4: calling block 1 of a concrete two-entry table preserves
lengths and shapes, leaves the already-resolved entry 0 untouched, and
resolves entry 1 from the first decoded item. -/
theorem claim_C4_witness :
    (runCalls Dw4 [(1, read_meta.yes)] sW4).block_starts.length
        = sW4.block_starts.length ∧
    (runCalls Dw4 [(1, read_meta.yes)] sW4).block_starts[0]?
        = some ⟨0, 5, 1, item_type.node⟩ ∧
    (⟨[⟨0, 5, 1, item_type.node⟩, ⟨1, 42, 1, item_type.way⟩], [7, 8]⟩
        : TableState).block_starts[1]? = some ⟨1, 42, 1, item_type.way⟩ := by
  refine ⟨(claim_C4 Dw4 [(1, read_meta.yes)] sW4).1.1,
    (claim_C4 Dw4 [(1, read_meta.yes)] sW4).2.1 0 ⟨0, 5, 1, item_type.node⟩ rfl (by decide),
    ?_⟩
  exact ((claim_C4 Dw4 [(1, read_meta.yes)] sW4).2.2 sW4 1 read_meta.yes
    [⟨42, item_type.way⟩]
    ⟨[⟨0, 5, 1, item_type.node⟩, ⟨1, 42, 1, item_type.way⟩], [7, 8]⟩
    ⟨1, 0, 1, item_type.undefined⟩ (by decide) (by decide) (by decide)).2
    ⟨42, item_type.way⟩ [] rfl

/-- Counterexample for C5 as stated: with the high bit set in byte 1, the
signed-char sign extension pollutes the upper half of the 32-bit result —
bytes `0,255,0,0` compute to `0xFFFF0000` instead of the big-endian value
`0x00FF0000`. -/
theorem claim_C5_counterexample :
    get_size_in_network_byte_order 0 255 0 0 = 4294901760 ∧
    bigEndian4 0 255 0 0 = 16711680 ∧
    get_size_in_network_byte_order 0 255 0 0 ≠ bigEndian4 0 255 0 0 :=
  ⟨by decide, by decide, by decide⟩

/-- Claim C5 (amended): the computed length-prefix value equals the big-endian
unsigned 32-bit interpretation of the four bytes whenever the three lower
bytes are below 128; byte 0 may be any value 0..255, since its sign extension
is shifted out of the 32-bit result. -/
theorem claim_C5 (d0 d1 d2 d3 : Nat) (h0 : d0 < 256) (h1 : d1 < 128)
    (h2 : d2 < 128) (h3 : d3 < 128) :
    get_size_in_network_byte_order d0 d1 d2 d3 = bigEndian4 d0 d1 d2 d3 :=
  get_size_eq_bigEndian d0 d1 d2 d3 h0 h1 h2 h3

/-- Witness for C5 (amended): a high-bit top byte still yields the big-endian
value. -/
theorem claim_C5_witness :
    get_size_in_network_byte_order 200 1 2 3 = bigEndian4 200 1 2 3 :=
  claim_C5 200 1 2 3 (by decide) (by decide) (by decide) (by decide)

/-- Claim C6: index construction is all-or-nothing — in this embedding an
error carries no entries at all.  After any run of well-formed blocks:
a block header declaring a `datasize` beyond the block-size bound aborts the
whole construction; a file truncated inside a length prefix fails with an EOF
error; and a file truncated inside the final body makes the final offset
overshoot the file size, which also fails — never a silently shortened
index. -/
theorem claim_C6 (dm : List Nat → List HField) (hdr : SynthBlock)
    (gs : List SynthBlock) (hhdr : GoodBlock dm OSMHeaderBytes hdr)
    (hgs : ∀ b ∈ gs, GoodBlock dm OSMDataBytes b) :
    (∀ (hb suffix : List Nat) (ds : Nat),
      hb.length ≤ max_small_blob_header_size →
      decode_blob_header (dm hb) OSMDataBytes = .ok ds → ds > max_block_size →
      buildIndex dm (encFile hdr gs ++ ([0, 0, 0, hb.length] ++ (hb ++ suffix)))
        = .error .invalidBlockSize) ∧
    (∀ (tail : List Nat), 0 < tail.length → tail.length < 4 →
      buildIndex dm (encFile hdr gs ++ tail) = .error .eofBlobHeaderSize) ∧
    (∀ (hb body2 : List Nat) (ds : Nat),
      hb.length ≤ max_small_blob_header_size →
      decode_blob_header (dm hb) OSMDataBytes = .ok ds → ds ≤ max_block_size →
      body2.length < ds →
      buildIndex dm (encFile hdr gs ++ ([0, 0, 0, hb.length] ++ (hb ++ body2)))
        = .error .fileSizeMismatch) :=
  ⟨fun hb suffix ds h64 hdec hbig =>
      buildIndex_oversize dm hdr gs hb suffix ds hhdr hgs h64 hdec hbig,
   fun tail hpos h4 => buildIndex_truncated_header dm hdr gs tail hhdr hgs hpos h4,
   fun hb body2 ds h64 hdec hsmall htrunc =>
      buildIndex_overshoot dm hdr gs hb body2 ds hhdr hgs h64 hdec hsmall htrunc⟩

/-- Witness for C6: a concrete valid header-plus-data prefix followed by an
oversized block, a 2-byte stub, or a truncated body, each fails with the
respective error. -/
theorem claim_C6_witness :
    buildIndex dmW6 (encFile hdrW6 gsW6 ++ ([0, 0, 0, 1] ++ ([2] ++ [])))
        = .error .invalidBlockSize ∧
    buildIndex dmW6 (encFile hdrW6 gsW6 ++ [1, 2]) = .error .eofBlobHeaderSize ∧
    buildIndex dmW6 (encFile hdrW6 gsW6 ++ ([0, 0, 0, 1] ++ ([3] ++ [1, 2])))
        = .error .fileSizeMismatch := by
  have T := claim_C6 dmW6 hdrW6 gsW6 (by decide) (by decide)
  refine ⟨?_, T.2.1 [1, 2] (by decide) (by decide), ?_⟩
  · have h := T.1 [2] [] 30000000 (by decide) (by decide) (by decide)
    simpa using h
  · have h := T.2.2 [3] [1, 2] 5 (by decide) (by decide) (by decide) (by decide)
    simpa using h

/-- Claim C7: adding a tag key/value, a relation-member role, or a changeset
comment's author name longer than the maximum OSM string length raises a
length error, and the bytes of previously committed sibling Items are
byte-for-byte unchanged.  `add_tag` checks both lengths before writing
anything; `add_member` and `add_comment` first commit their fixed-size
sub-record (inside the current item) and only then fail, still leaving the
committed region untouched. -/
theorem claim_C7 :
    (∀ (s : BuilderState) (key value : List Nat),
      key.length > max_osm_string_length ∨ value.length > max_osm_string_length →
      (add_tag s key value).1 = some BuildError.lengthError ∧
      (add_tag s key value).2 = s) ∧
    (∀ (s : BuilderState) (role : List Nat),
      role.length > max_osm_string_length →
      (add_member s role).1 = some BuildError.lengthError ∧
      (add_member s role).2.committed = s.committed ∧
      (add_member s role).2.current
        = s.current ++ List.replicate relation_member_size 0) ∧
    (∀ (s : DiscState) (user : List Nat), s.pending = false →
      user.length > max_osm_string_length →
      (add_comment s user).1 = some BuildError.lengthError ∧
      (add_comment s user).2.committed = s.committed ∧
      (add_comment s user).2.current
        = s.current ++ List.replicate changeset_comment_size 0) := by
  refine ⟨?_, ?_, ?_⟩
  · intro s key value hlong
    unfold add_tag
    rcases hlong with hk | hv
    · rw [if_pos hk]
      exact ⟨rfl, rfl⟩
    · by_cases hk : key.length > max_osm_string_length
      · rw [if_pos hk]
        exact ⟨rfl, rfl⟩
      · rw [if_neg hk, if_pos hv]
        exact ⟨rfl, rfl⟩
  · intro s role hlong
    unfold add_member
    dsimp only
    rw [if_pos hlong]
    exact ⟨rfl, rfl, rfl⟩
  · intro s user hp hlong
    unfold add_comment
    rw [if_neg (by simp [hp])]
    dsimp only
    rw [if_pos hlong]
    exact ⟨rfl, rfl, rfl⟩

/-- Witness for C7: a 1025-byte string trips each of the three length checks
while the committed sibling bytes `[1, 2, 3]` survive unchanged. -/
theorem claim_C7_witness :
    ((add_tag ⟨[1, 2, 3], [4], 5⟩ (List.replicate 1025 65) [66]).1
        = some BuildError.lengthError ∧
      (add_tag ⟨[1, 2, 3], [4], 5⟩ (List.replicate 1025 65) [66]).2
        = ⟨[1, 2, 3], [4], 5⟩) ∧
    ((add_member ⟨[1, 2, 3], [4], 5⟩ (List.replicate 1025 65)).1
        = some BuildError.lengthError ∧
      (add_member ⟨[1, 2, 3], [4], 5⟩ (List.replicate 1025 65)).2.committed
        = [1, 2, 3] ∧
      (add_member ⟨[1, 2, 3], [4], 5⟩ (List.replicate 1025 65)).2.current
        = [4] ++ List.replicate relation_member_size 0) ∧
    ((add_comment ⟨false, [1, 2, 3], [4], 5⟩ (List.replicate 1025 65)).1
        = some BuildError.lengthError ∧
      (add_comment ⟨false, [1, 2, 3], [4], 5⟩ (List.replicate 1025 65)).2.committed
        = [1, 2, 3] ∧
      (add_comment ⟨false, [1, 2, 3], [4], 5⟩ (List.replicate 1025 65)).2.current
        = [4] ++ List.replicate changeset_comment_size 0) :=
  ⟨claim_C7.1 ⟨[1, 2, 3], [4], 5⟩ (List.replicate 1025 65) [66]
      (Or.inl (by rw [List.length_replicate]; decide)),
   claim_C7.2.1 ⟨[1, 2, 3], [4], 5⟩ (List.replicate 1025 65)
      (by rw [List.length_replicate]; decide),
   claim_C7.2.2 ⟨false, [1, 2, 3], [4], 5⟩ (List.replicate 1025 65) rfl
      (by rw [List.length_replicate]; decide)⟩

/-- Claim C8: on a fresh object or changeset builder, `set_user` with a name
of length at most the maximum passes its assertion; the built object's
user-name field equals the given bytes and the stored `user_size` is
`length + 1`; one extra zero-filled, alignment-padded reservation is made
exactly when the name exceeds the initially reserved space (5 bytes for
objects after the 2-byte size slot, 7 bytes for changesets), and none
otherwise. -/
theorem claim_C8 (objBytes csBytes user : List Nat)
    (hmax : user.length ≤ max_osm_string_length) :
    (∃ r : ObjBuilderState,
      OSMObjectBuilder.set_user (mkOSMObjectBuilder objBytes) user = some r ∧
      OSMObjectBuilder.userName r = user ∧
      r.user_size = user.length + 1 ∧
      r.data = objBytes ++ List.replicate 2 0 ++ user
        ++ List.replicate
          (8 + (if user.length > 5 then padded_length (user.length - 5) else 0)
            - (2 + user.length)) 0 ∧
      r.size = (mkOSMObjectBuilder objBytes).size
        + (if user.length > 5 then padded_length (user.length - 5) else 0)) ∧
    (∃ r : ObjBuilderState,
      ChangesetBuilder.set_user (mkChangesetBuilder csBytes) user = some r ∧
      ChangesetBuilder.userName r = user ∧
      r.user_size = user.length + 1 ∧
      r.data = csBytes ++ user
        ++ List.replicate
          (8 + (if user.length > 7 then padded_length (user.length - 7) else 0)
            - user.length) 0 ∧
      r.size = (mkChangesetBuilder csBytes).size
        + (if user.length > 7 then padded_length (user.length - 7) else 0)) := by
  constructor
  · refine ⟨_, set_user_obj_spec objBytes user, ?_, rfl, rfl, ?_⟩
    · unfold OSMObjectBuilder.userName
      dsimp only
      have hassoc : objBytes ++ List.replicate 2 0 ++ user
            ++ List.replicate
              (8 + (if user.length > 5 then padded_length (user.length - 5) else 0)
                - (2 + user.length)) 0
          = (objBytes ++ List.replicate 2 0)
            ++ (user ++ List.replicate
              (8 + (if user.length > 5 then padded_length (user.length - 5) else 0)
                - (2 + user.length)) 0) := by
        simp
      rw [hassoc]
      rw [show objBytes.length + string_size_type_size
          = (objBytes ++ List.replicate 2 0).length from by simp [string_size_type_size]]
      rw [List.drop_left]
      rw [Nat.add_sub_cancel]
      rw [List.take_append_of_le_length (by omega), List.take_length]
    · unfold mkOSMObjectBuilder
      rw [padded_length_three]
  · refine ⟨_, set_user_cs_spec csBytes user, ?_, rfl, rfl, ?_⟩
    · unfold ChangesetBuilder.userName
      dsimp only
      have hassoc : csBytes ++ user
            ++ List.replicate
              (8 + (if user.length > 7 then padded_length (user.length - 7) else 0)
                - user.length) 0
          = csBytes
            ++ (user ++ List.replicate
              (8 + (if user.length > 7 then padded_length (user.length - 7) else 0)
                - user.length) 0) := by
        simp
      rw [hassoc]
      rw [List.drop_left]
      rw [Nat.add_sub_cancel]
      rw [List.take_append_of_le_length (by omega), List.take_length]
    · unfold mkChangesetBuilder
      rw [padded_length_one]

/-- Witness for C8: a 6-byte name triggers the extra reservation on an object
builder (6 > 5) but fits the changeset slot (6 ≤ 7). -/
theorem claim_C8_witness :
    (∃ r : ObjBuilderState,
      OSMObjectBuilder.set_user (mkOSMObjectBuilder [9, 9]) [65, 66, 67, 68, 69, 70]
          = some r ∧
      OSMObjectBuilder.userName r = [65, 66, 67, 68, 69, 70] ∧
      r.user_size = [65, 66, 67, 68, 69, 70].length + 1 ∧
      r.data = [9, 9] ++ List.replicate 2 0 ++ [65, 66, 67, 68, 69, 70]
        ++ List.replicate
          (8 + (if [65, 66, 67, 68, 69, 70].length > 5
              then padded_length ([65, 66, 67, 68, 69, 70].length - 5) else 0)
            - (2 + [65, 66, 67, 68, 69, 70].length)) 0 ∧
      r.size = (mkOSMObjectBuilder [9, 9]).size
        + (if [65, 66, 67, 68, 69, 70].length > 5
            then padded_length ([65, 66, 67, 68, 69, 70].length - 5) else 0)) ∧
    (∃ r : ObjBuilderState,
      ChangesetBuilder.set_user (mkChangesetBuilder [7]) [65, 66, 67, 68, 69, 70]
          = some r ∧
      ChangesetBuilder.userName r = [65, 66, 67, 68, 69, 70] ∧
      r.user_size = [65, 66, 67, 68, 69, 70].length + 1 ∧
      r.data = [7] ++ [65, 66, 67, 68, 69, 70]
        ++ List.replicate
          (8 + (if [65, 66, 67, 68, 69, 70].length > 7
              then padded_length ([65, 66, 67, 68, 69, 70].length - 7) else 0)
            - [65, 66, 67, 68, 69, 70].length) 0 ∧
      r.size = (mkChangesetBuilder [7]).size
        + (if [65, 66, 67, 68, 69, 70].length > 7
            then padded_length ([65, 66, 67, 68, 69, 70].length - 7) else 0)) :=
  claim_C8 [9, 9] [7] [65, 66, 67, 68, 69, 70] (by decide)

/-- Claim C9: on a `ChangesetDiscussionBuilder`, ending a comment without a
pending begin, beginning twice without an intervening end, or destroying the
builder with a comment pending, each fires the assertion (a precondition
fault); and under strict begin/end alternation starting and ending with no
pending comment, no assertion ever fires — a run completes (the destructor's
assertion passing) or stops at a length error, never at an assertion. -/
theorem claim_C9 :
    (∀ (s : DiscState) (t : List Nat) (rest : List DiscOp), s.pending = false →
      (runDisc (DiscOp.commentText t :: rest) s).1 = some BuildError.assertFail) ∧
    (∀ (s : DiscState) (u u2 : List Nat) (rest : List DiscOp), s.pending = false →
      u.length ≤ max_osm_string_length →
      (runDisc (DiscOp.comment u :: DiscOp.comment u2 :: rest) s).1
        = some BuildError.assertFail) ∧
    (∀ (s : DiscState), s.pending = true →
      disc_dtor_assert s = some BuildError.assertFail) ∧
    (∀ (ops : List DiscOp) (s : DiscState), alternatingOps ops = true →
      s.pending = false →
      (runDisc ops s).1 ≠ some BuildError.assertFail ∧
      ((runDisc ops s).1 = none → disc_dtor_assert (runDisc ops s).2 = none)) := by
  refine ⟨?_, ?_, ?_, ?_⟩
  · intro s t rest hp
    unfold runDisc discStep add_comment_text
    dsimp only
    rw [if_pos (by simp [hp])]
  · intro s u u2 rest hp hu
    unfold runDisc discStep add_comment
    dsimp only
    rw [if_neg (by simp [hp]), if_neg (by omega)]
    unfold runDisc discStep add_comment
    dsimp only
    rw [if_pos rfl]
  · intro s hp
    unfold disc_dtor_assert
    rw [if_pos hp]
  · intro ops s halt hp
    have aux := runDisc_alternating_aux ops.length ops s le_rfl halt hp
    refine ⟨aux.1, fun hnone => ?_⟩
    unfold disc_dtor_assert
    rw [if_neg (by rw [aux.2 hnone]; simp)]

/-- Witness for C9: each misuse pattern on a concrete fresh builder faults,
and a well-formed begin/end pair raises no assertion and leaves the
destructor's assertion passing. -/
theorem claim_C9_witness :
    (runDisc [DiscOp.commentText [65]] ⟨false, [], [], 0⟩).1
        = some BuildError.assertFail ∧
    (runDisc [DiscOp.comment [65], DiscOp.comment [66]] ⟨false, [], [], 0⟩).1
        = some BuildError.assertFail ∧
    disc_dtor_assert ⟨true, [], [], 0⟩ = some BuildError.assertFail ∧
    ((runDisc [DiscOp.comment [65], DiscOp.commentText [66]] ⟨false, [], [], 0⟩).1
        ≠ some BuildError.assertFail ∧
      ((runDisc [DiscOp.comment [65], DiscOp.commentText [66]] ⟨false, [], [], 0⟩).1
          = none →
        disc_dtor_assert
          (runDisc [DiscOp.comment [65], DiscOp.commentText [66]]
            ⟨false, [], [], 0⟩).2 = none)) :=
  ⟨claim_C9.1 ⟨false, [], [], 0⟩ [65] [] rfl,
   claim_C9.2.1 ⟨false, [], [], 0⟩ [65] [66] [] rfl (by decide),
   claim_C9.2.2.1 ⟨true, [], [], 0⟩ rfl,
   claim_C9.2.2.2 [DiscOp.comment [65], DiscOp.commentText [66]]
     ⟨false, [], [], 0⟩ (by decide) rfl⟩

/-- Claim C10: when `set_user` is never called, a freshly constructed object
or changeset builder already stores an empty user name rather than an absent
field: `user_size` is 1 (the terminating NUL only), the reserved name slot is
zero-filled, and the extracted user name is the empty string. -/
theorem claim_C10 (objBytes csBytes : List Nat) :
    (mkOSMObjectBuilder objBytes).user_size = 1 ∧
    OSMObjectBuilder.userName (mkOSMObjectBuilder objBytes) = [] ∧
    (mkOSMObjectBuilder objBytes).data.drop objBytes.length = List.replicate 8 0 ∧
    (mkChangesetBuilder csBytes).user_size = 1 ∧
    ChangesetBuilder.userName (mkChangesetBuilder csBytes) = [] ∧
    (mkChangesetBuilder csBytes).data.drop csBytes.length = List.replicate 8 0 := by
  refine ⟨rfl, ?_, ?_, rfl, ?_, ?_⟩
  · unfold OSMObjectBuilder.userName mkOSMObjectBuilder
    rfl
  · unfold mkOSMObjectBuilder
    dsimp only
    rw [List.drop_left, padded_length_three]
  · unfold ChangesetBuilder.userName mkChangesetBuilder
    rfl
  · unfold mkChangesetBuilder
    dsimp only
    rw [List.drop_left, padded_length_one]

end Osmium
